import Mathlib

/-!
# Verification of the onfido-go-sdk request/pagination engine

Shallow embedding of the core of `besafe-labs/onfido-go-sdk`: the HTTP
transport retry loop (`internal/httpclient`), the response/error mapper
(`client.go`: `getError`, `getResponseOrError`), the pagination extractor
(`client.go`: `extractPageDetails`) and the identifier validation of the
operation facade (`workflow_run.go`, `document.go`, `applicant.go`).

Go strings are modelled as `List Char`; Go `strings.Split` / `Contains` /
`ReplaceAll` and `strconv.Atoi` are embedded below.  JSON bodies are
modelled as a syntax tree together with an explicit parse-failure case
(`Except String Json`), which is the view `encoding/json.Unmarshal` gives
the code: either a syntax error or a structured value.  `time.Duration`
values are integer nanoseconds.
-/

namespace Onfido

/-- Go `strings.HasPrefix` on rune lists. -/
def goHasPre : List Char → List Char → Bool
  | [], _ => true
  | _ :: _, [] => false
  | c :: cs, d :: ds => c = d && goHasPre cs ds

/-- One scanning step of Go `strings.Split` (non-empty separator):
`fuel` bounds the number of characters consumed and is instantiated with
the length of the string, which suffices because every step drops at
least one character. -/
def goSplitCore (sep : List Char) : Nat → List Char → List Char → List (List Char)
  | _, [], acc => [acc.reverse]
  | 0, s, acc => [acc.reverse ++ s]
  | fuel + 1, c :: rest, acc =>
    if goHasPre sep (c :: rest) then
      acc.reverse :: goSplitCore sep fuel (rest.drop (sep.length - 1)) []
    else
      goSplitCore sep fuel rest (c :: acc)

/-- Go `strings.Split s sep` for a non-empty separator. -/
def goSplit (s sep : List Char) : List (List Char) :=
  goSplitCore sep s.length s []

/-- Go `strings.Contains s sub`. -/
def goContains : List Char → List Char → Bool
  | [], sub => goHasPre sub []
  | c :: rest, sub => goHasPre sub (c :: rest) || goContains rest sub

/-- Go `strings.ReplaceAll s old new` for a non-empty `old`. -/
def goReplaceAll (s old new : List Char) : List Char :=
  List.intercalate new (goSplit s old)

/-- Go `strconv.Atoi`: an optional sign followed by at least one digit
(64-bit overflow is not modelled; the headers involved carry small
numbers). -/
def goAtoi (s : List Char) : Option Int :=
  let (neg, digits) :=
    match s with
    | '-' :: rest => (true, rest)
    | '+' :: rest => (false, rest)
    | _ => (false, s)
  match digits with
  | [] => none
  | _ =>
    if digits.all Char.isDigit then
      let n : Nat := digits.foldl (fun acc c => acc * 10 + (c.toNat - '0'.toNat)) 0
      some (if neg then -(n : Int) else (n : Int))
    else none

/-- JSON values, as `encoding/json` sees a parsed body (numbers restricted
to integers; the decoded fields of this API are integral or textual). -/
inductive Json where
  | null
  | bool (b : Bool)
  | num (n : Int)
  | str (s : String)
  | arr (elems : List Json)
  | obj (fields : List (String × Json))

/-- `encoding/json` decode of a JSON value into a Go `string` field:
`null` leaves the zero value, a string decodes to itself, anything else
is a type error. -/
def decodeGoString : Json → Except String String
  | .null => .ok ""
  | .str s => .ok s
  | _ => .error "cannot unmarshal value into Go string"

/-- The domain error of the API (`OnfidoError` in `client.go` /
`errors.go`): `{type, message, fields}`.  The `fields` map is kept as the
association list of the JSON object. -/
structure OnfidoError where
  type : String
  message : String
  fields : List (String × Json)

/-- `encoding/json` decode of a JSON value into `OnfidoError`
(fields `type`, `message` strings; `fields` an object; absent keys leave
zero values; a non-object value is a type error). -/
def decodeOnfidoError : Json → Except String OnfidoError
  | .obj fs => do
    let t ← match fs.lookup "type" with
      | none => .ok ""
      | some j => decodeGoString j
    let m ← match fs.lookup "message" with
      | none => .ok ""
      | some j => decodeGoString j
    let f ← match fs.lookup "fields" with
      | none => .ok []
      | some .null => .ok []
      | some (.obj gs) => .ok gs
      | some _ => .error "cannot unmarshal value into map"
    .ok ⟨t, m, f⟩
  | .null => .ok ⟨"", "", []⟩
  | _ => .error "cannot unmarshal value into OnfidoError"

/-- `encoding/json` decode of a JSON value into the anonymous envelope
`struct { Error *OnfidoError \x7b json:"error" \x7d }` used by `getError`:
the result is the final value of the `Error` pointer (`none` = nil). -/
def decodeEnvelope : Json → Except String (Option OnfidoError)
  | .null => .ok none
  | .obj fs =>
    match fs.lookup "error" with
    | none => .ok none
    | some .null => .ok none
    | some j => (decodeOnfidoError j).map some
  | _ => .error "cannot unmarshal value into envelope struct"

/-- `resp.DecodeJSON(&onfidoError)` seen through the body model: a body
that failed to parse propagates its syntax error, otherwise the envelope
decode runs on the parsed value. -/
def decodeEnvelopeBody : Except String Json → Except String (Option OnfidoError)
  | .error m => .error m
  | .ok j => decodeEnvelope j

/-- Go `error` values the client produces or receives.  `onfido e`
is an `error` interface holding a `*OnfidoError` pointer (`e = none`
models the typed-nil pointer); `ctxCanceled` a context cancellation;
`transport` an underlying network error; `wrapped` a `fmt.Errorf`
with `%w`. -/
inductive GoError where
  | onfido (e : Option OnfidoError)
  | ctxCanceled
  | transport (msg : String)
  | wrapped (msg : String) (cause : GoError)

/-- The response object of `internal/httpclient` (`HttpResponse`) as the
mapper consumes it: status code, headers (association list, canonical
keys), the body as parse outcome, and the raw body length (used only by
the download operations). -/
structure HttpResponse where
  statusCode : Int
  headers : List (String × String)
  body : Except String Json
  bodyLen : Nat := 0

/-- Go `http.Header.Get`: first value for the key, `""` when absent. -/
def headerGet (hs : List (String × String)) (k : String) : String :=
  (hs.lookup k).getD ""

/-- `client.go` `getError` (second revision, lines 457-475): tolerate 302
when asked, treat \[200,300) as success, otherwise decode the body as an
`{error: ...}` envelope, synthesizing an `unknown internal error` with an
`OnfidoErrorDecode:` message when the decode fails. -/
def getError (resp : HttpResponse) (ingoreFound : Bool) : Option GoError :=
  if resp.statusCode = 302 ∧ ingoreFound then none
  else if resp.statusCode < 200 ∨ 300 ≤ resp.statusCode then
    match decodeEnvelopeBody resp.body with
    | .error m =>
      some (.onfido (some ⟨"unknown internal error", "OnfidoErrorDecode: " ++ m, []⟩))
    | .ok e => some (.onfido e)
  else none

/-- `resp.DecodeJSON(dest)` for a destination type whose derived decode
function is `f`: a parse failure propagates, otherwise `f` runs on the
parsed value. -/
def decodeBodyWith (f : Json → Except String Unit) :
    Except String Json → Except String Unit
  | .error m => .error m
  | .ok j => f j

/-- `client.go` `getResponseOrError` (second revision, lines 443-455):
classify through `getError`, then decode the body into the destination
when one is requested.  The destination type is abstracted as the decode
function `encoding/json` derives for it. -/
def getResponseOrError (resp : HttpResponse)
    (dest : Option (Json → Except String Unit)) : Option GoError :=
  match getError resp false with
  | some e => some e
  | none =>
    match dest with
    | none => none
    | some decodeDest =>
      match decodeBodyWith decodeDest resp.body with
      | .error m => some (.onfido (some ⟨"unknown internal error", m, []⟩))
      | .ok _ => none

/-- The page descriptor of `client.go` (`PageDetails`, second revision):
all fields optional, `limit` carrying the `per_page` value. -/
structure PageDetails where
  total : Option Int := none
  limit : Option Int := none
  firstPage : Option Int := none
  lastPage : Option Int := none
  nextPage : Option Int := none
  prevPage : Option Int := none
  deriving DecidableEq, Repr

/-- The `rel` switch at the end of the `extractPageDetails` loop body
(`client.go` lines 631-642), entered only for a non-zero page. -/
def assignRel (pd : PageDetails) (rel : List Char) (page : Int) : PageDetails :=
  if rel = "first".data then { pd with firstPage := some page }
  else if rel = "last".data then { pd with lastPage := some page }
  else if rel = "next".data then { pd with nextPage := some page }
  else if rel = "prev".data then { pd with prevPage := some page }
  else pd

/-- The page-number half of the loop body (`client.go` lines 624-642):
split on `page=`, require exactly two pieces, parse, and assign when the
parsed page is non-zero. -/
def processPage (pd : PageDetails) (main rel : List Char) : PageDetails :=
  match goSplit main "page=".data with
  | [_, pageStr] =>
    let page := (goAtoi pageStr).getD 0
    if page ≠ 0 then assignRel pd rel page else pd
  | _ => pd

/-- The `per_page` half of the loop body (`client.go` lines 610-622):
when the entry mentions `per_page=`, it must split on `&per_page=` into
exactly two pieces or the whole entry is skipped; a non-zero parsed value
is assigned to `limit` before page extraction continues on the prefix. -/
def processMain (pd : PageDetails) (main rel : List Char) : PageDetails :=
  if goContains main "per_page=".data then
    match goSplit main "&per_page=".data with
    | [m, ppStr] =>
      let pp := (goAtoi ppStr).getD 0
      let pd := if pp ≠ 0 then { pd with limit := some pp } else pd
      processPage pd m rel
    | _ => pd
  else processPage pd main rel

/-- One iteration of the `extractPageDetails` loop (`client.go` lines
601-644): split the entry on `>; rel=`, require exactly two pieces, strip
quotes from the relation, then process `per_page` and `page`. -/
def processLink (pd : PageDetails) (link : List Char) : PageDetails :=
  match goSplit link ">; rel=".data with
  | [main, relRaw] => processMain pd main (goReplaceAll relRaw "\"".data [])
  | _ => pd

/-- `client.go` `extractPageDetails` (second revision, lines 592-647):
parse `X-Total-Count` (kept only when non-zero), then fold the comma-split
`Link` header through the loop body. -/
def extractPageDetails (headers : List (String × String)) : PageDetails :=
  let total := (goAtoi (headerGet headers "X-Total-Count").data).getD 0
  let pd : PageDetails := if total ≠ 0 then { total := some total } else {}
  (goSplit (headerGet headers "Link").data ",".data).foldl processLink pd

/-- A response as the retry loop of `internal/httpclient.doRequest` sees
it: its status code and its `Retry-After` header (`""` when absent). -/
structure TResp where
  status : Int
  retryAfter : String
  deriving DecidableEq, Repr

/-- Outcome of one `c.client.Do(req)` call: a response or an error. -/
abbrev SendResult := Except GoError TResp

/-- `internal/httpclient` `shouldRetry` (lines 552-557): any send error
is retryable, otherwise exactly status 429 and statuses ≥ 500 are.
(`resp = none ∧ err = none` cannot reach it: `http.Client.Do` returns a
non-nil response whenever it returns a nil error.) -/
def shouldRetry (resp : Option TResp) (err : Option GoError) : Bool :=
  match err with
  | some _ => true
  | none =>
    match resp with
    | some r => r.status = 429 || 500 ≤ r.status
    | none => false

/-- Observable outcome of the retry loop of `doRequest`: the final values
of `resp` and `lastErr`, the sleeps performed (nanoseconds, in order) and
the number of `c.client.Do` calls issued. -/
structure LoopOut where
  resp : Option TResp
  lastErr : Option GoError
  waits : List Int
  calls : Nat

/-- The retry loop of `internal/httpclient.doRequest` (lines 484-513).
`fuel` stands for the remaining loop-condition checks: the loop runs
while `attempt ≤ retries` and every iteration (including the `continue`
of the Retry-After branch, which Go routes through `attempt++`) increases
`attempt`, so `retries + 1 - attempt` bounds the iterations.  The k-th
`c.client.Do` call returns `sends k`. -/
def doRequestLoop (retries : Nat) (wait : Int) (sends : Nat → SendResult) :
    Nat → Nat → Option TResp → Option GoError → List Int → Nat → LoopOut
  | 0, _, resp, lastErr, waits, calls => ⟨resp, lastErr, waits, calls⟩
  | fuel + 1, attempt, resp, lastErr, waits, calls =>
    match (if 0 < attempt then
             match resp with
             | some r =>
               if r.status = 429 ∧ r.retryAfter ≠ "" then goAtoi r.retryAfter.data
               else none
             | none => none
           else none : Option Int) with
    | some seconds =>
      doRequestLoop retries wait sends fuel (attempt + 1) resp lastErr
        (waits ++ [seconds * 1000000000]) calls
    | none =>
      let waits := if 0 < attempt then waits ++ [wait] else waits
      match sends calls with
      | .ok r =>
        if shouldRetry (some r) none = false ∨ retries ≤ attempt then
          ⟨some r, none, waits, calls + 1⟩
        else
          doRequestLoop retries wait sends fuel (attempt + 1) (some r) none waits (calls + 1)
      | .error e =>
        if retries ≤ attempt then ⟨none, some e, waits, calls + 1⟩
        else
          doRequestLoop retries wait sends fuel (attempt + 1) none (some e) waits (calls + 1)

/-- What `doRequest` hands back to its caller. -/
inductive ReqResult where
  | resp (r : TResp)
  | err (e : GoError)

/-- Observable outcome of a whole `doRequest` call. -/
structure DoOut where
  result : ReqResult
  waits : List Int
  calls : Nat

/-- The default-wait normalization of `doRequest` (lines 428-431): a
positive retry count with an unset wait gets a 2-second wait. -/
def effectiveRetryWait (retries : Nat) (retryWait : Int) : Int :=
  if 0 < retries ∧ retryWait = 0 then 2000000000 else retryWait

/-- `internal/httpclient.doRequest` (lines 419-534) from the point where
request construction has succeeded: normalize the wait, run the retry
loop, and either wrap the last error in a `request failed after N
retries` message or return the last response.  (`nilResponse` marks the
unreachable nil-response/nil-error exit, where Go would panic.) -/
def doRequest (retries : Nat) (retryWait : Int) (sends : Nat → SendResult) : DoOut :=
  let o := doRequestLoop retries (effectiveRetryWait retries retryWait) sends
    (retries + 1) 0 none none [] 0
  match o.lastErr with
  | some e =>
    ⟨.err (.wrapped ("request failed after " ++ toString retries ++ " retries") e),
      o.waits, o.calls⟩
  | none =>
    match o.resp with
    | some r => ⟨.resp r, o.waits, o.calls⟩
    | none => ⟨.err (.transport "nilResponse"), o.waits, o.calls⟩

/-- `client.go` `Client.do` (lines 331-343): a single non-blocking check
of the context, returning its error when it is already done and otherwise
running the request function once. -/
def clientDo (ctxDone : Bool) (ctxErr : GoError) (req : Unit → Option GoError) :
    Option GoError :=
  if ctxDone then some ctxErr else req ()

/-- `errors.go` `ErrInvalidId`: the validation error returned for a
missing required identifier. -/
def ErrInvalidId : OnfidoError := ⟨"validation_error", "id is required", []⟩

/-- `workflow_run.go` `RetrieveWorkflowRun` (part_007 lines 149-171):
reject an empty identifier before doing anything, then run `Client.do`
around one GET whose response goes through `getResponseOrError` with the
`WorkflowRun` destination (abstracted as `decodeDest`).  The result pairs
the returned error with the number of network requests issued. -/
def retrieveWorkflowRun (ctxDone : Bool) (ctxErr : GoError) (workflowRunID : String)
    (send : Except GoError HttpResponse) (decodeDest : Json → Except String Unit) :
    Option GoError × Nat :=
  if workflowRunID = "" then (some (.onfido (some ErrInvalidId)), 0)
  else if ctxDone then (some ctxErr, 0)
  else
    match send with
    | .error e => (some e, 1)
    | .ok resp => (getResponseOrError resp (some decodeDest), 1)

/-- `document.go` `RetrieveDocument` (part_010 lines 114-135): same shape
as `retrieveWorkflowRun` with the `Document` destination. -/
def retrieveDocument (ctxDone : Bool) (ctxErr : GoError) (documentId : String)
    (send : Except GoError HttpResponse) (decodeDest : Json → Except String Unit) :
    Option GoError × Nat :=
  if documentId = "" then (some (.onfido (some ErrInvalidId)), 0)
  else if ctxDone then (some ctxErr, 0)
  else
    match send with
    | .error e => (some e, 1)
    | .ok resp => (getResponseOrError resp (some decodeDest), 1)

/-- `document.go` `DownloadDocument` (part_010 lines 167-196): empty-id
check, then one GET tolerating 302 through `getError resp true`, failing
on an empty raw body. -/
def downloadDocument (ctxDone : Bool) (ctxErr : GoError) (documentId : String)
    (send : Except GoError HttpResponse) : Option GoError × Nat :=
  if documentId = "" then (some (.onfido (some ErrInvalidId)), 0)
  else if ctxDone then (some ctxErr, 0)
  else
    match send with
    | .error e => (some e, 1)
    | .ok resp =>
      match getError resp true with
      | some e => (some e, 1)
      | none =>
        if resp.bodyLen = 0 then (some (.transport "unable to download document"), 1)
        else (none, 1)

/-- Modelled from the spec: the current `applicant.go` is not part of the
source snapshot (only an older revision without identifier validation
survives in part_008, which the newest applicant tests in part_000 —
`ReturnErrorOnEmptyID` expecting a `validation_error` — contradict).  Per
spec §4.5/§7, each applicant operation taking a required path identifier
(retrieve, update, delete, restore) validates it before issuing any
request and otherwise follows the shared facade shape. -/
def applicantIdOperation (ctxDone : Bool) (ctxErr : GoError) (applicantId : String)
    (send : Except GoError HttpResponse) (dest : Option (Json → Except String Unit)) :
    Option GoError × Nat :=
  if applicantId = "" then (some (.onfido (some ErrInvalidId)), 0)
  else if ctxDone then (some ctxErr, 0)
  else
    match send with
    | .error e => (some e, 1)
    | .ok resp => (getResponseOrError resp dest, 1)

/-! ## Concrete send streams used in the theorems -/

/-- Response sequence `[429 with Retry-After: 3, then 200]`. -/
def sendsRetryAfter : Nat → SendResult :=
  fun k => if k = 0 then .ok ⟨429, "3"⟩ else .ok ⟨200, ""⟩

/-- Response sequence `[429, 429, 200]`, no `Retry-After` header. -/
def sendsTwo429 : Nat → SendResult :=
  fun k => if k ≤ 1 then .ok ⟨429, ""⟩ else .ok ⟨200, ""⟩

/-- Every send fails with a context-cancellation error. -/
def sendsCtx : Nat → SendResult := fun _ => .error .ctxCanceled

/-- Every send fails with a plain transport error. -/
def sendsBoom : Nat → SendResult := fun _ => .error (.transport "connection refused")

/-- Every send returns a plain 200. -/
def sends200 : Nat → SendResult := fun _ => .ok ⟨200, ""⟩

/-! ## Claims -/

/-- C1: the spec says a 429 with a parseable `Retry-After: 3` causes a flat
3-second wait followed by an immediate re-attempt, so `[429 Retry-After: 3,
200]` ends in the 200 after one 3-second wait.  The code instead executes
`continue` after the sleep, which in a Go three-clause `for` runs
`attempt++` and re-enters the loop with the stored 429 still in `resp`, so
no request is ever re-issued: with one retry allowed, the call performs one
3-second wait, makes no second send (`calls = 1`), and returns the original
429 response.  The second conjunct shows the no-`Retry-After` half behaves
as specified: `[429, 429, 200]` makes two fixed waits and returns the 200. -/
theorem C1_retry_after_skips_resend :
    doRequest 1 1000000000 sendsRetryAfter
      = ⟨.resp ⟨429, "3"⟩, [3000000000], 1⟩ ∧
    doRequest 2 5000000000 sendsTwo429
      = ⟨.resp ⟨200, ""⟩, [5000000000, 5000000000], 3⟩ :=
  ⟨rfl, rfl⟩

set_option maxRecDepth 4000 in
/-- C5: the headers `Link: <...?page=2>; rel="next", <...?page=3>;
rel="last"` with `X-Total-Count: 6` extract to total 6, next page 2, last
page 3, and no first/prev page. -/
theorem C5_page_details_extraction :
    extractPageDetails
      [("X-Total-Count", "6"),
       ("Link", "<https://api.eu.onfido.com/v3.6/applicants?page=2>; rel=\"next\", <https://api.eu.onfido.com/v3.6/applicants?page=3>; rel=\"last\"")]
      = ⟨some 6, none, none, some 3, some 2, none⟩ := by
  decide

/-- C6 counterexample: an entry whose non-zero numeric `per_page` parameter
is the first query parameter (`?per_page=5&page=2`) contains `per_page=`
but not `&per_page=`, so the split-on-`&per_page=` check fails and the
whole entry is skipped: the extractor assigns neither `limit` nor
`nextPage`, refuting position-independence of `per_page` extraction. -/
theorem C6_per_page_position_counterexample :
    extractPageDetails [("Link", "<https://a.b/c?per_page=5&page=2>; rel=\"next\"")]
      = ⟨none, none, none, none, none, none⟩ := by
  decide

/-- Helper for C6: the `rel` switch touches only the four positional
fields, never `limit`. -/
theorem assignRel_limit (pd : PageDetails) (rel : List Char) (page : Int) :
    (assignRel pd rel page).limit = pd.limit := by
  unfold assignRel
  split_ifs <;> rfl

/-- Helper for C6: the non-zero guard around the `rel` switch also never
modifies `limit`. -/
theorem ite_assignRel_limit (pd : PageDetails) (rel : List Char) (p : Int) :
    (if p ≠ 0 then assignRel pd rel p else pd).limit = pd.limit := by
  split_ifs with h
  · exact assignRel_limit pd rel p
  · rfl

/-- Helper for C6: the page-number half of the loop body never modifies
`limit`. -/
theorem processPage_limit (pd : PageDetails) (main rel : List Char) :
    (processPage pd main rel).limit = pd.limit := by
  unfold processPage
  split
  · exact ite_assignRel_limit _ _ _
  · rfl

/-- Helper for C6: an entry that does not split into exactly two pieces
on `>; rel=` is left without effect. -/
theorem processLink_skip (pd : PageDetails) (link : List Char)
    (h : (goSplit link ">; rel=".data).length ≠ 2) :
    processLink pd link = pd := by
  cases hs : goSplit link ">; rel=".data with
  | nil => simp [processLink, hs]
  | cons a t =>
    cases t with
    | nil => simp [processLink, hs]
    | cons b u =>
      cases u with
      | nil => exact absurd (by rw [hs]; rfl) h
      | cons c v => simp [processLink, hs]

/-- Helper for C6: when the URL piece of an entry contains `per_page=`,
splits on `&per_page=` into exactly two pieces, and the whole tail parses
to a non-zero integer, that integer is assigned to `limit` (whatever the
relation and whatever happens to the page number afterwards). -/
theorem processMain_limit_assign (pd : PageDetails) (main rel m ppStr : List Char)
    (n : Int) (hc : goContains main "per_page=".data = true)
    (hs : goSplit main "&per_page=".data = [m, ppStr])
    (ha : goAtoi ppStr = some n) (hn : n ≠ 0) :
    (processMain pd main rel).limit = some n := by
  unfold processMain
  rw [if_pos hc, hs]
  simp only [ha, Option.getD_some]
  rw [if_pos hn, processPage_limit]

/-- Helper for C6: `limit` characterization of one loop iteration — the
field is left unchanged unless the entry satisfies the full `per_page`
shape (rel split of length two, `per_page=` present, a single `&per_page=`
occurrence whose entire tail parses as a non-zero integer), in which case
it is set to that integer. -/
theorem processMain_limit_char (pd : PageDetails) (main rel : List Char) :
    (processMain pd main rel).limit = pd.limit ∨
      ∃ (m ppStr : List Char) (n : Int),
        goContains main "per_page=".data = true ∧
        goSplit main "&per_page=".data = [m, ppStr] ∧
        goAtoi ppStr = some n ∧ n ≠ 0 ∧
        (processMain pd main rel).limit = some n := by
  by_cases hc : goContains main "per_page=".data = true
  · rcases h2 : goSplit main "&per_page=".data with _ | ⟨m, _ | ⟨ppStr, _ | ⟨y, u⟩⟩⟩
    · left; unfold processMain; rw [if_pos hc, h2]
    · left; unfold processMain; rw [if_pos hc, h2]
    · cases ha : goAtoi ppStr with
      | none =>
        left; unfold processMain; rw [if_pos hc, h2]
        simp [ha, processPage_limit]
      | some k =>
        by_cases hk : k = 0
        · left; unfold processMain; rw [if_pos hc, h2]
          simp [ha, hk, processPage_limit]
        · right
          exact ⟨m, ppStr, k, hc, rfl, ha, hk,
            processMain_limit_assign pd main rel m ppStr k hc h2 ha hk⟩
    · left; unfold processMain; rw [if_pos hc, h2]
  · left; unfold processMain; rw [if_neg hc]
    exact processPage_limit pd main rel

/-- Helper for C6: `processMain_limit_char` lifted to a whole entry. -/
theorem processLink_limit_char (pd : PageDetails) (link : List Char) :
    (processLink pd link).limit = pd.limit ∨
      ∃ (main relRaw m ppStr : List Char) (n : Int),
        goSplit link ">; rel=".data = [main, relRaw] ∧
        goContains main "per_page=".data = true ∧
        goSplit main "&per_page=".data = [m, ppStr] ∧
        goAtoi ppStr = some n ∧ n ≠ 0 ∧
        (processLink pd link).limit = some n := by
  rcases h1 : goSplit link ">; rel=".data with _ | ⟨main, _ | ⟨relRaw, _ | ⟨x, t⟩⟩⟩
  · left; rw [processLink_skip pd link (by rw [h1]; simp)]
  · left; rw [processLink_skip pd link (by rw [h1]; simp)]
  · have hpl : processLink pd link
        = processMain pd main (goReplaceAll relRaw "\"".data []) := by
      unfold processLink; rw [h1]
    rcases processMain_limit_char pd main (goReplaceAll relRaw "\"".data []) with
      h | ⟨m, ppStr, n, hc, h2, ha, hn, hl⟩
    · left; rw [hpl]; exact h
    · right
      exact ⟨main, relRaw, m, ppStr, n, rfl, hc, h2, ha, hn, by rw [hpl]; exact hl⟩
  · left; rw [processLink_skip pd link (by rw [h1]; simp)]

/-- Helper for C6: no entry ever resets an already assigned `limit`. -/
theorem processLink_limit_stays (pd : PageDetails) (link : List Char)
    (h : pd.limit ≠ none) : (processLink pd link).limit ≠ none := by
  rcases processLink_limit_char pd link with hl | ⟨_, _, _, _, n, _, _, _, _, _, hl⟩
  · rw [hl]; exact h
  · rw [hl]; exact fun hh => Option.noConfusion hh

/-- Helper for C6: an assigned `limit` survives the rest of the fold. -/
theorem foldl_processLink_limit_stays (links : List (List Char)) :
    ∀ pd : PageDetails, pd.limit ≠ none →
      (links.foldl processLink pd).limit ≠ none := by
  induction links with
  | nil => exact fun pd h => h
  | cons l ls ih =>
    intro pd h
    exact ih (processLink pd l) (processLink_limit_stays pd l h)

/-- C6 (amended): an entry assigns the descriptor's `limit` field exactly
when it splits into exactly two pieces on `>; rel=`, its URL piece
contains `per_page=` and splits into exactly two pieces on `&per_page=`
(a single occurrence, preceded by `&`, so not the first query parameter),
and the entire remainder after `&per_page=` parses as a non-zero integer
— i.e. `per_page` must also be the last query parameter; such an entry
sets `limit` to that integer wherever it sits in the header list and
whatever its `rel`, and `limit` stays assigned for the rest of the
extraction; any other entry leaves `limit` untouched (in particular
`?per_page=5&page=2`, `per_page` first, assigns nothing at all, and
`?page=2&per_page=5&x=1`, `per_page` not last, leaves `limit` unset while
its page number is still extracted); and an entry malformed at the
`>; rel=` split is skipped entirely without aborting extraction of the
remaining entries. -/
theorem C6_per_page_and_skip_amended :
    (∀ (pd : PageDetails) (link : List Char),
        (goSplit link ">; rel=".data).length ≠ 2 → processLink pd link = pd) ∧
    (∀ (pd : PageDetails) (xs ys : List (List Char)) (link : List Char),
        (goSplit link ">; rel=".data).length ≠ 2 →
        (xs ++ link :: ys).foldl processLink pd = (xs ++ ys).foldl processLink pd) ∧
    (∀ (pd : PageDetails) (link main relRaw m ppStr : List Char) (n : Int),
        goSplit link ">; rel=".data = [main, relRaw] →
        goContains main "per_page=".data = true →
        goSplit main "&per_page=".data = [m, ppStr] →
        goAtoi ppStr = some n → n ≠ 0 →
        (processLink pd link).limit = some n) ∧
    (∀ (pd : PageDetails) (link : List Char),
        (processLink pd link).limit = pd.limit ∨
          ∃ (main relRaw m ppStr : List Char) (n : Int),
            goSplit link ">; rel=".data = [main, relRaw] ∧
            goContains main "per_page=".data = true ∧
            goSplit main "&per_page=".data = [m, ppStr] ∧
            goAtoi ppStr = some n ∧ n ≠ 0 ∧
            (processLink pd link).limit = some n) ∧
    (∀ (pd : PageDetails) (xs ys : List (List Char))
        (link main relRaw m ppStr : List Char) (n : Int),
        goSplit link ">; rel=".data = [main, relRaw] →
        goContains main "per_page=".data = true →
        goSplit main "&per_page=".data = [m, ppStr] →
        goAtoi ppStr = some n → n ≠ 0 →
        ((xs ++ link :: ys).foldl processLink pd).limit ≠ none) ∧
    extractPageDetails
      [("Link", "<https://a.b/c?page=2&per_page=5>; rel=\"next\", <https://a.b/c?page=3>; rel=\"last\"")]
      = ⟨none, some 5, none, some 3, some 2, none⟩ ∧
    extractPageDetails [("Link", "<https://a.b/c?page=2&per_page=5&x=1>; rel=\"next\"")]
      = ⟨none, none, none, none, some 2, none⟩ := by
  have assign : ∀ (pd : PageDetails) (link main relRaw m ppStr : List Char) (n : Int),
      goSplit link ">; rel=".data = [main, relRaw] →
      goContains main "per_page=".data = true →
      goSplit main "&per_page=".data = [m, ppStr] →
      goAtoi ppStr = some n → n ≠ 0 →
      (processLink pd link).limit = some n := by
    intro pd link main relRaw m ppStr n h1 hc hs ha hn
    have hpl : processLink pd link
        = processMain pd main (goReplaceAll relRaw "\"".data []) := by
      unfold processLink; rw [h1]
    rw [hpl]
    exact processMain_limit_assign pd main _ m ppStr n hc hs ha hn
  refine ⟨processLink_skip, ?_, assign, processLink_limit_char, ?_, by decide, by decide⟩
  · intro pd xs ys link h
    rw [List.foldl_append, List.foldl_append, List.foldl_cons, processLink_skip _ _ h]
  · intro pd xs ys link main relRaw m ppStr n h1 hc hs ha hn
    rw [List.foldl_append, List.foldl_cons]
    apply foldl_processLink_limit_stays
    rw [assign _ link main relRaw m ppStr n h1 hc hs ha hn]
    exact fun hh => Option.noConfusion hh

/-- C6 witness: the amended theorem applied to a concrete qualifying entry
(`per_page` last, preceded by `&`: limit set to 5) and to a concrete
malformed entry (skipped without effect). -/
theorem C6_amended_witness :
    (processLink ⟨none, none, none, none, none, none⟩
        "<https://a.b/c?page=2&per_page=5>; rel=\"next\"".data).limit = some 5 ∧
    processLink ⟨none, none, none, none, none, none⟩ "garbage".data
      = ⟨none, none, none, none, none, none⟩ :=
  ⟨C6_per_page_and_skip_amended.2.2.1 ⟨none, none, none, none, none, none⟩
      "<https://a.b/c?page=2&per_page=5>; rel=\"next\"".data
      "<https://a.b/c?page=2&per_page=5".data "\"next\"".data
      "<https://a.b/c?page=2".data "5".data 5 rfl rfl rfl rfl (by decide),
   C6_per_page_and_skip_amended.1 ⟨none, none, none, none, none, none⟩
      "garbage".data (by decide)⟩

/-- C7: every operation taking a required path identifier rejects an empty
identifier with the `validation_error` value `ErrInvalidId` and issues
zero network requests, regardless of context state, network behavior and
destination decoding (the applicant family is modelled from the spec, its
current source file being absent from the snapshot). -/
theorem C7_empty_id_fails_without_request :
    (∀ ctxDone ctxErr send dec,
        retrieveWorkflowRun ctxDone ctxErr "" send dec
          = (some (.onfido (some ErrInvalidId)), 0)) ∧
    (∀ ctxDone ctxErr send dec,
        retrieveDocument ctxDone ctxErr "" send dec
          = (some (.onfido (some ErrInvalidId)), 0)) ∧
    (∀ ctxDone ctxErr send,
        downloadDocument ctxDone ctxErr "" send
          = (some (.onfido (some ErrInvalidId)), 0)) ∧
    (∀ ctxDone ctxErr send dest,
        applicantIdOperation ctxDone ctxErr "" send dest
          = (some (.onfido (some ErrInvalidId)), 0)) :=
  ⟨fun _ _ _ _ => rfl, fun _ _ _ _ => rfl, fun _ _ _ => rfl, fun _ _ _ _ => rfl⟩

/-- C2 counterexample: with one retry configured, a send that fails with a
context-cancellation error is followed by one more wait and one more send
attempt — the transport loop treats cancellation like any other send error
instead of aborting, refuting "no further attempts or waits occur after
cancellation". -/
theorem C2_cancellation_retried_counterexample :
    (doRequest 1 7 sendsCtx).calls = 2 ∧ (doRequest 1 7 sendsCtx).waits = [7] ∧
    (doRequest 1 7 sendsCtx).result
      = .err (.wrapped "request failed after 1 retries" .ctxCanceled) :=
  ⟨rfl, rfl, rfl⟩

/-- C2 (amended): every operation takes a context and `Client.do` returns
the context's error without invoking the request function when the context
is already done; but the transport retry loop performs no per-attempt
context check — a cancellation error coming back from a send is retried
(a further wait and a further send occur) until the budget is exhausted,
and is then returned wrapped like a transport error. -/
theorem C2_context_checked_once_amended :
    (∀ (e : GoError) (req : Unit → Option GoError), clientDo true e req = some e) ∧
    (∀ w : Int, (doRequest 1 w sendsCtx).calls = 2 ∧
        (doRequest 1 w sendsCtx).waits.length = 1 ∧
        (doRequest 1 w sendsCtx).result
          = .err (.wrapped "request failed after 1 retries" .ctxCanceled)) := by
  refine ⟨fun e req => rfl, fun w => ?_⟩
  simp [doRequest, doRequestLoop, sendsCtx, shouldRetry]
  decide

/-- C3: for a response whose status is outside \[200,300) (no 302
tolerance requested), a body decoding to a well-formed `{error: {...}}`
envelope classifies to exactly the decoded domain error, and a body whose
envelope decode fails classifies to a synthetic `unknown internal error`
carrying the decode failure message. -/
theorem C3_error_envelope_classification (resp : HttpResponse)
    (h : resp.statusCode < 200 ∨ 300 ≤ resp.statusCode) :
    (∀ e : OnfidoError, decodeEnvelopeBody resp.body = .ok (some e) →
        getError resp false = some (.onfido (some e))) ∧
    (∀ m : String, decodeEnvelopeBody resp.body = .error m →
        getError resp false
          = some (.onfido (some ⟨"unknown internal error",
              "OnfidoErrorDecode: " ++ m, []⟩))) := by
  constructor
  · intro e he
    unfold getError
    rw [if_neg (by simp), if_pos h, he]
  · intro m hm
    unfold getError
    rw [if_neg (by simp), if_pos h, hm]

/-- C3 witness: a 404 carrying `{"error":{"type":"resource_not_found",
"message":"x"}}` classifies to that exact domain error. -/
theorem C3_envelope_witness :
    getError ⟨404, [], .ok (.obj [("error",
        .obj [("type", .str "resource_not_found"), ("message", .str "x")])]), 0⟩ false
      = some (.onfido (some ⟨"resource_not_found", "x", []⟩)) :=
  (C3_error_envelope_classification
      ⟨404, [], .ok (.obj [("error",
        .obj [("type", .str "resource_not_found"), ("message", .str "x")])]), 0⟩
      (by decide)).1 ⟨"resource_not_found", "x", []⟩ rfl

/-- C4: for a response with status in \[200,300), classification returns
no error when no destination is requested (no decoding is attempted: the
result is `none` for every body, parseable or not), returns no error when
the requested destination decodes, and returns only the synthetic decode
error when decoding the destination fails. -/
theorem C4_success_classification (resp : HttpResponse)
    (h1 : 200 ≤ resp.statusCode) (h2 : resp.statusCode < 300) :
    getResponseOrError resp none = none ∧
    (∀ f, decodeBodyWith f resp.body = .ok () →
        getResponseOrError resp (some f) = none) ∧
    (∀ f m, decodeBodyWith f resp.body = .error m →
        getResponseOrError resp (some f)
          = some (.onfido (some ⟨"unknown internal error", m, []⟩))) := by
  have hge : getError resp false = none := by
    unfold getError
    rw [if_neg (by simp), if_neg (by omega)]
  refine ⟨?_, ?_, ?_⟩
  · unfold getResponseOrError; rw [hge]
  · intro f hf; unfold getResponseOrError; rw [hge]; simp [hf]
  · intro f m hf; unfold getResponseOrError; rw [hge]; simp [hf]

/-- C4 witness: a 200 response yields no error both without a destination
(even with an unparseable body) and with a successfully decoding one. -/
theorem C4_success_witness :
    getResponseOrError ⟨200, [], .error "bad json", 0⟩ none = none ∧
    getResponseOrError ⟨200, [], .ok .null, 0⟩ (some fun _ => .ok ()) = none :=
  ⟨(C4_success_classification ⟨200, [], .error "bad json", 0⟩
      (by decide) (by decide)).1,
   (C4_success_classification ⟨200, [], .ok .null, 0⟩
      (by decide) (by decide)).2.1 (fun _ => .ok ()) rfl⟩

/-- C8 counterexample: a 400 response whose body is `{"error":{}}` makes
an operation surface a domain error with empty type, empty message and
empty fields — the mapper passes the decoded envelope through verbatim
with no meaningfulness check. -/
theorem C8_empty_error_counterexample :
    retrieveWorkflowRun false .ctxCanceled "id"
      (.ok ⟨400, [], .ok (.obj [("error", .obj [])]), 0⟩) (fun _ => .ok ())
      = (some (.onfido (some ⟨"", "", []⟩)), 1) :=
  rfl

/-- Helper for C8: an all-empty-typed domain error out of `getError` can
only be the verbatim decode of the response body, since the synthesized
decode-failure error always carries the non-empty type
`unknown internal error`. -/
theorem getError_empty_type_from_body (resp : HttpResponse) (e : OnfidoError)
    (he : getError resp false = some (.onfido (some e))) (ht : e.type = "") :
    decodeEnvelopeBody resp.body = .ok (some e) := by
  unfold getError at he
  rw [if_neg (by simp)] at he
  by_cases hs : resp.statusCode < 200 ∨ 300 ≤ resp.statusCode
  · rw [if_pos hs] at he
    cases hd : decodeEnvelopeBody resp.body with
    | error m =>
      rw [hd] at he
      injection he with h1
      injection h1 with h2
      injection h2 with h3
      rw [← h3] at ht
      simp at ht
    | ok env =>
      rw [hd] at he
      injection he with h1
      injection h1 with h2
      rw [h2]
  · rw [if_neg hs] at he
    exact Option.noConfusion he

/-- C8 (amended): whenever classification surfaces a domain error whose
`type` is empty, that error is the verbatim content of the response's
`{error: ...}` envelope; every error the client synthesizes itself
(envelope or destination decode failure) has the non-empty type
`unknown internal error`, so an all-empty error can only reproduce an
all-empty error object sent by the server. -/
theorem C8_empty_error_only_from_body (resp : HttpResponse)
    (dest : Option (Json → Except String Unit)) (e : OnfidoError)
    (he : getResponseOrError resp dest = some (.onfido (some e)))
    (ht : e.type = "") :
    decodeEnvelopeBody resp.body = .ok (some e) := by
  unfold getResponseOrError at he
  cases hg : getError resp false with
  | some g =>
    rw [hg] at he
    injection he with h1
    rw [h1] at hg
    exact getError_empty_type_from_body resp e hg ht
  | none =>
    rw [hg] at he
    cases dest with
    | none => exact Option.noConfusion he
    | some f =>
      simp only at he
      cases hd : decodeBodyWith f resp.body with
      | ok u => rw [hd] at he; exact Option.noConfusion he
      | error m =>
        rw [hd] at he
        injection he with h1
        injection h1 with h2
        injection h2 with h3
        rw [← h3] at ht
        simp at ht

/-- C8 witness: the amended theorem applied to the concrete 400 response
with body `{"error":{}}` and no destination. -/
theorem C8_empty_error_witness :
    decodeEnvelopeBody (Except.ok (Json.obj [("error", Json.obj [])]))
      = .ok (some ⟨"", "", []⟩) :=
  C8_empty_error_only_from_body ⟨400, [], .ok (.obj [("error", .obj [])]), 0⟩
    none ⟨"", "", []⟩ rfl rfl

/-- C9 counterexample: with a zero retry budget and a failing send, the
loop's last error is the bare transport error, but the caller receives it
wrapped in a `request failed after 0 retries` message — not "as-is". -/
theorem C9_error_not_returned_as_is :
    (doRequestLoop 0 0 sendsBoom 1 0 none none [] 0).lastErr
      = some (.transport "connection refused") ∧
    (doRequest 0 0 sendsBoom).result
      = .err (.wrapped "request failed after 0 retries"
          (.transport "connection refused")) ∧
    (doRequest 0 0 sendsBoom).result
      ≠ .err (.transport "connection refused") := by
  refine ⟨rfl, rfl, fun h => ?_⟩
  rw [show (doRequest 0 0 sendsBoom).result
      = .err (.wrapped "request failed after 0 retries"
          (.transport "connection refused")) from rfl] at h
  simp at h

/-- C9 (amended): an attempt is eligible for retry exactly when the send
returned any error (cancellation included) or the response status is 429
or at least 500; a first response that is not retryable ends the loop at
once with that response returned as-is and no waits; and on termination
the last response is returned as-is while a last send error is returned
wrapped in a `request failed after N retries` message around the original
error. -/
theorem C9_retry_eligibility_and_termination :
    (∀ (r : Option TResp) (err : Option GoError),
        shouldRetry r err = true ↔
          err ≠ none ∨ ∃ t, r = some t ∧ (t.status = 429 ∨ 500 ≤ t.status)) ∧
    (∀ (retries : Nat) (wait : Int) (sends : Nat → SendResult) (r : TResp),
        sends 0 = .ok r → shouldRetry (some r) none = false →
        doRequest retries wait sends = ⟨.resp r, [], 1⟩) ∧
    (∀ (retries : Nat) (retryWait : Int) (sends : Nat → SendResult) (e : GoError),
        (doRequestLoop retries (effectiveRetryWait retries retryWait) sends
            (retries + 1) 0 none none [] 0).lastErr = some e →
        (doRequest retries retryWait sends).result
          = .err (.wrapped ("request failed after " ++ toString retries ++ " retries") e)) ∧
    (∀ (retries : Nat) (retryWait : Int) (sends : Nat → SendResult) (r : TResp),
        (doRequestLoop retries (effectiveRetryWait retries retryWait) sends
            (retries + 1) 0 none none [] 0).lastErr = none →
        (doRequestLoop retries (effectiveRetryWait retries retryWait) sends
            (retries + 1) 0 none none [] 0).resp = some r →
        (doRequest retries retryWait sends).result = .resp r) := by
  refine ⟨?_, ?_, ?_, ?_⟩
  · intro r err
    cases err with
    | some e => simp [shouldRetry]
    | none =>
      cases r with
      | none => simp [shouldRetry]
      | some t => simp [shouldRetry]
  · intro retries wait sends r hsend hsr
    simp [doRequest, doRequestLoop, hsend, hsr]
  · intro retries retryWait sends e hl
    simp only [doRequest]
    rw [hl]
  · intro retries retryWait sends r hl hr
    simp only [doRequest]
    rw [hl, hr]

/-- C9 witness: a first 200 ends the loop immediately with that response,
whatever the configured budget and wait. -/
theorem C9_termination_witness :
    doRequest 5 7 sends200 = ⟨.resp ⟨200, ""⟩, [], 1⟩ :=
  C9_retry_eligibility_and_termination.2.1 5 7 sends200 ⟨200, ""⟩ rfl rfl

/-- C10: a positive retry count with a zero (unset) retry wait is
normalized to a 2-second wait before the loop starts, so the whole call
behaves exactly as if 2 seconds had been configured; with one retry and a
failing send, the single wait performed is 2 seconds. -/
theorem C10_default_retry_wait (retries : Nat) (sends : Nat → SendResult)
    (h : 0 < retries) :
    effectiveRetryWait retries 0 = 2000000000 ∧
    doRequest retries 0 sends = doRequest retries 2000000000 sends ∧
    (doRequest 1 0 sendsBoom).waits = [2000000000] := by
  have he : effectiveRetryWait retries 0 = 2000000000 := by
    unfold effectiveRetryWait
    rw [if_pos ⟨h, rfl⟩]
  have he2 : effectiveRetryWait retries 2000000000 = 2000000000 := by
    unfold effectiveRetryWait
    rw [if_neg (by omega)]
  refine ⟨he, ?_, rfl⟩
  unfold doRequest
  rw [he, he2]

/-- C10 witness: with one retry configured, a zero wait and a 2-second
wait produce identical behavior. -/
theorem C10_default_wait_witness :
    doRequest 1 0 sendsBoom = doRequest 1 2000000000 sendsBoom :=
  (C10_default_retry_wait 1 sendsBoom (by decide)).2.1

end Onfido
